import Mathlib

/-!
Verification of the Parametric build-calculation engine.

Shallow embedding of the core algorithms of the repository:
* `src/client/utils/drain.ts` — polarity matching, effective drain, total capacity;
* `src/client/utils/formaCounter.ts` — forma cost between two polarity layouts;
* `src/client/utils/elements.ts` — elemental damage combination;
* the riven verifier and mod-effect parser (their source files are not
  present, only their tests; those two are modelled from the spec).

Machine numbers are embedded as `Int`/`ℚ`; JavaScript `Math.round` is
floor of `x + 1/2`, `Math.ceil` is `⌈·⌉`.
-/

namespace Parametric

/- ### Polarity constants (src/client/types/warframe.ts) -/

def AP_ATTACK : String := "AP_ATTACK"

def AP_DEFENSE : String := "AP_DEFENSE"

def AP_TACTIC : String := "AP_TACTIC"

def AP_WARD : String := "AP_WARD"

def AP_POWER : String := "AP_POWER"

def AP_PRECEPT : String := "AP_PRECEPT"

def AP_UMBRA : String := "AP_UMBRA"

def AP_ANY : String := "AP_ANY"

def REGULAR_POLARITIES : List String :=
  [AP_ATTACK, AP_DEFENSE, AP_TACTIC, AP_WARD, AP_POWER, AP_PRECEPT]

inductive SlotType
  | general
  | aura
  | stance
  | exilus
  | posture
deriving DecidableEq, Repr

/-- `isCapacitySlot` of `src/client/utils/drain.ts`:
aura, stance and posture slots add capacity rather than consuming it. -/
def isCapacitySlot : SlotType → Bool
  | .aura => true
  | .stance => true
  | .posture => true
  | _ => false

/- ### Drain engine (src/client/utils/drain.ts) -/

inductive MatchResult
  | pmatch
  | neutral
  | mismatch
deriving DecidableEq, Repr

/-- `polarityMatchResult` of `src/client/utils/drain.ts`:
universal (`AP_ANY`) matches every polarity except Umbra;
`AP_ANY` against `AP_UMBRA` is neutral. -/
def polarityMatchResult (a b : String) : MatchResult :=
  if a = b then .pmatch
  else if a = AP_ANY ∨ b = AP_ANY then
    if a = AP_UMBRA ∨ b = AP_UMBRA then .neutral else .pmatch
  else .mismatch

/-- Embeds JavaScript `Math.ceil(m / 2)` for an integer `m`.
Division by 2 is exact in binary floating point, so the value is
`⌈m/2⌉ = ⌊(m+1)/2⌋` (`ceilHalf_eq` below relates it to `⌈·⌉` over `ℚ`). -/
def ceilHalf (m : Int) : Int := (m + 1) / 2

/-- Embeds JavaScript `Math.round(m * 0.25)` for an integer `m`.
`m * 0.25` is exact in binary floating point and `Math.round` rounds half
toward positive infinity, so the value is `⌊m/4 + 1/2⌋ = ⌊(m+2)/4⌋`
(`roundQuarter_eq` below relates it to `⌊·⌋` over `ℚ`). -/
def roundQuarter (m : Int) : Int := (m + 2) / 4

/-- `calculateEffectiveDrain` of `src/client/utils/drain.ts`. -/
def calculateEffectiveDrain (baseDrain modRank fusionLimit : Int)
    (slotPolarity modPolarity : Option String) (slotType : SlotType) : Int :=
  let clampedRank := min modRank fusionLimit
  let absDrain := (baseDrain.natAbs : Int) + clampedRank
  match slotPolarity, modPolarity with
  | some sp, some mp =>
    match polarityMatchResult sp mp with
    | .neutral => if isCapacitySlot slotType then -absDrain else absDrain
    | .pmatch =>
      if isCapacitySlot slotType then -(absDrain * 2)
      else ceilHalf absDrain
    | .mismatch =>
      if isCapacitySlot slotType then
        -(absDrain - roundQuarter absDrain)
      else
        absDrain + roundQuarter absDrain
  | _, _ => if isCapacitySlot slotType then -absDrain else absDrain

structure Mod where
  base_drain : Option Int := none
  fusion_limit : Option Int := none
  polarity : Option String := none
  description : Option String := none
deriving DecidableEq, Repr

structure ModSlot where
  type : SlotType
  polarity : Option String := none
  mod : Option Mod := none
  rank : Option Int := none
deriving DecidableEq, Repr

/-- The per-slot drain computed inside `calculateTotalCapacity`
(`src/client/utils/drain.ts`, the loop body). -/
def slotEffectiveDrain (slot : ModSlot) (m : Mod) : Int :=
  calculateEffectiveDrain (m.base_drain.getD 0)
    (slot.rank.getD (m.fusion_limit.getD 0)) (m.fusion_limit.getD 0)
    slot.polarity m.polarity slot.type

structure CapacityResult where
  baseCapacity : Int
  capacityBonus : Int
  totalDrain : Int
  remaining : Int
deriving DecidableEq, Repr

/-- The loop body of `calculateTotalCapacity` (`src/client/utils/drain.ts`):
an empty slot contributes nothing; a negative drain accumulates its absolute
value into `capacityBonus` (first component), a non-negative drain into
`totalDrain` (second component). -/
def capacityStep (acc : Int × Int) (slot : ModSlot) : Int × Int :=
  match slot.mod with
  | none => acc
  | some m =>
    let drain := slotEffectiveDrain slot m
    if drain < 0 then (acc.1 + (drain.natAbs : Int), acc.2)
    else (acc.1, acc.2 + drain)

/-- `calculateTotalCapacity` of `src/client/utils/drain.ts`. -/
def calculateTotalCapacity (slots : List ModSlot)
    (baseCapacity : Int := 30) (orokinReactor : Bool := false) : CapacityResult :=
  let effectiveBase := if orokinReactor then baseCapacity * 2 else baseCapacity
  let acc := slots.foldl capacityStep (0, 0)
  { baseCapacity := effectiveBase
    capacityBonus := acc.1
    totalDrain := acc.2
    remaining := effectiveBase + acc.1 - acc.2 }

example : calculateEffectiveDrain 4 5 5 none (some AP_ATTACK) .general = 9 := by decide

example : calculateEffectiveDrain 4 5 5 (some AP_ATTACK) (some AP_ATTACK) .general = 5 := by decide

example : calculateEffectiveDrain 4 5 5 (some AP_DEFENSE) (some AP_ATTACK) .general = 11 := by decide

example : calculateEffectiveDrain (-7) 0 5 (some AP_ATTACK) (some AP_ATTACK) .aura = -14 := by decide

example : calculateEffectiveDrain 4 5 5 (some AP_ANY) (some AP_UMBRA) .general = 9 := by decide

example : calculateTotalCapacity [] 30 true = ⟨60, 0, 0, 60⟩ := by decide

/- ### Rounding bridge lemmas -/

/-- `ceilHalf` is the ceiling of `m/2` over `ℚ`. -/
theorem ceilHalf_eq (m : Int) : ceilHalf m = ⌈(m : ℚ) / 2⌉ := by
  have h : ⌊(((-m : Int) : ℚ)) / ((2 : ℕ) : ℚ)⌋ = -⌈(m : ℚ) / 2⌉ := by
    rw [show (((-m : Int) : ℚ)) / ((2 : ℕ) : ℚ) = -((m : ℚ) / 2) by push_cast; ring]
    exact Int.floor_neg
  have h2 := Rat.floor_intCast_div_natCast (-m) 2
  unfold ceilHalf
  omega

/-- `roundQuarter` is `⌊m/4 + 1/2⌋` over `ℚ`: 25% of `m`, rounded half up. -/
theorem roundQuarter_eq (m : Int) : roundQuarter m = ⌊(m : ℚ) / 4 + 1 / 2⌋ := by
  have h : (m : ℚ) / 4 + 1 / 2 = (((m + 2 : Int) : ℚ)) / ((4 : ℕ) : ℚ) := by
    push_cast
    ring
  rw [h, Rat.floor_intCast_div_natCast]
  unfold roundQuarter
  omega

/- ### Polarity classification lemmas -/

theorem polarityMatchResult_eq_pmatch (a b : String)
    (h : a = b ∨ ((a = AP_ANY ∨ b = AP_ANY) ∧ a ≠ AP_UMBRA ∧ b ≠ AP_UMBRA)) :
    polarityMatchResult a b = .pmatch := by
  unfold polarityMatchResult
  by_cases hab : a = b
  · simp [hab]
  · rcases h with h | ⟨hany, hu1, hu2⟩
    · exact absurd h hab
    · simp [hab, hany, hu1, hu2]

theorem polarityMatchResult_eq_mismatch (a b : String)
    (hab : a ≠ b) (ha : a ≠ AP_ANY) (hb : b ≠ AP_ANY) :
    polarityMatchResult a b = .mismatch := by
  unfold polarityMatchResult
  simp [hab, ha, hb]

theorem polarityMatchResult_comm (a b : String) :
    polarityMatchResult a b = polarityMatchResult b a := by
  have e1 : (a = b) = (b = a) := propext ⟨Eq.symm, Eq.symm⟩
  have e2 : (b = AP_ANY ∨ a = AP_ANY) = (a = AP_ANY ∨ b = AP_ANY) := propext or_comm
  have e3 : (b = AP_UMBRA ∨ a = AP_UMBRA) = (a = AP_UMBRA ∨ b = AP_UMBRA) :=
    propext or_comm
  unfold polarityMatchResult
  simp only [e1, e2, e3]

/- ### Claim theorems for the drain engine -/

/-- C4: for every baseDrain, modRank, fusionLimit and matching polarity pair
(equal, or universal against a non-Umbra polarity), `calculateEffectiveDrain`
with magnitude `m = |baseDrain| + min modRank fusionLimit` returns `⌈m/2⌉` on a
consuming slot and `-(2*m)` on a capacity slot; in particular
`effectiveDrain(4,5,5,'X','X','general') = 5` and
`effectiveDrain(-7,0,5,'X','X','aura') = -14`. -/
theorem effectiveDrain_match (baseDrain modRank fusionLimit : Int)
    (a b : String) (st : SlotType)
    (h : a = b ∨ ((a = AP_ANY ∨ b = AP_ANY) ∧ a ≠ AP_UMBRA ∧ b ≠ AP_UMBRA)) :
    (calculateEffectiveDrain baseDrain modRank fusionLimit (some a) (some b) st =
      if isCapacitySlot st then
        -(2 * ((baseDrain.natAbs : Int) + min modRank fusionLimit))
      else
        ⌈(((baseDrain.natAbs : Int) + min modRank fusionLimit : Int) : ℚ) / 2⌉) ∧
    calculateEffectiveDrain 4 5 5 (some AP_ATTACK) (some AP_ATTACK) .general = 5 ∧
    calculateEffectiveDrain (-7) 0 5 (some AP_ATTACK) (some AP_ATTACK) .aura = -14 := by
  refine ⟨?_, by decide, by decide⟩
  simp only [calculateEffectiveDrain, polarityMatchResult_eq_pmatch a b h]
  rcases Bool.eq_false_or_eq_true (isCapacitySlot st) with hc | hc <;>
    simp [hc, ceilHalf_eq]
  ring

/-- Witness for C4 at `baseDrain = 4, modRank = 5, fusionLimit = 5`,
matching Madurai polarities, on a general slot. -/
theorem effectiveDrain_match_witness :
    calculateEffectiveDrain 4 5 5 (some AP_ATTACK) (some AP_ATTACK) .general =
      ⌈(((Int.natAbs 4 : Int) + min 5 5 : Int) : ℚ) / 2⌉ ∧
    calculateEffectiveDrain (-7) 0 5 (some AP_ATTACK) (some AP_ATTACK) .aura = -14 := by
  have h := effectiveDrain_match 4 5 5 AP_ATTACK AP_ATTACK .general (.inl rfl)
  exact ⟨h.1, h.2.2⟩

/-- C2: for every baseDrain, modRank, fusionLimit and mismatched pair of
distinct non-universal polarities, `calculateEffectiveDrain` with magnitude
`m = |baseDrain| + min modRank fusionLimit` returns `-(m - ⌊m/4 + 1/2⌋)`
(magnitude reduced by 25% of itself rounded to nearest) on a capacity slot and
`m + ⌊m/4 + 1/2⌋` (magnitude increased by 25% rounded to nearest) on a
consuming slot; in particular `effectiveDrain(4,5,5,'Y','X','general') = 11`. -/
theorem effectiveDrain_mismatch (baseDrain modRank fusionLimit : Int)
    (a b : String) (st : SlotType)
    (hab : a ≠ b) (ha : a ≠ AP_ANY) (hb : b ≠ AP_ANY) :
    (calculateEffectiveDrain baseDrain modRank fusionLimit (some a) (some b) st =
      if isCapacitySlot st then
        -(((baseDrain.natAbs : Int) + min modRank fusionLimit) -
          ⌊(((baseDrain.natAbs : Int) + min modRank fusionLimit : Int) : ℚ) / 4 + 1 / 2⌋)
      else
        ((baseDrain.natAbs : Int) + min modRank fusionLimit) +
          ⌊(((baseDrain.natAbs : Int) + min modRank fusionLimit : Int) : ℚ) / 4 + 1 / 2⌋) ∧
    calculateEffectiveDrain 4 5 5 (some AP_DEFENSE) (some AP_ATTACK) .general = 11 := by
  refine ⟨?_, by decide⟩
  simp only [calculateEffectiveDrain, polarityMatchResult_eq_mismatch a b hab ha hb]
  rcases Bool.eq_false_or_eq_true (isCapacitySlot st) with hc | hc <;>
    simp [hc, roundQuarter_eq]

/-- Witness for C2 at `baseDrain = 4, modRank = 5, fusionLimit = 5`,
Vazarin slot against Madurai mod, on a general slot. -/
theorem effectiveDrain_mismatch_witness :
    calculateEffectiveDrain 4 5 5 (some AP_DEFENSE) (some AP_ATTACK) .general =
      ((Int.natAbs 4 : Int) + min 5 5) +
        ⌊(((Int.natAbs 4 : Int) + min 5 5 : Int) : ℚ) / 4 + 1 / 2⌋ ∧
    calculateEffectiveDrain 4 5 5 (some AP_DEFENSE) (some AP_ATTACK) .general = 11 := by
  have h := effectiveDrain_mismatch 4 5 5 AP_DEFENSE AP_ATTACK .general
    (by decide) (by decide) (by decide)
  exact ⟨h.1, h.2⟩

/-- C8: swapping the slot-polarity and mod-polarity arguments never changes
`calculateEffectiveDrain` (polarity classification is symmetric); the
universal-against-Umbra pair is neutral in either order:
`effectiveDrain(4,5,5,universal,umbra,'general') = 9`. -/
theorem effectiveDrain_symm :
    (∀ (baseDrain modRank fusionLimit : Int) (sp mp : Option String) (st : SlotType),
      calculateEffectiveDrain baseDrain modRank fusionLimit sp mp st =
        calculateEffectiveDrain baseDrain modRank fusionLimit mp sp st) ∧
    calculateEffectiveDrain 4 5 5 (some AP_ANY) (some AP_UMBRA) .general = 9 ∧
    calculateEffectiveDrain 4 5 5 (some AP_UMBRA) (some AP_ANY) .general = 9 := by
  refine ⟨?_, by decide, by decide⟩
  intro baseDrain modRank fusionLimit sp mp st
  match sp, mp with
  | none, none => rfl
  | none, some b => rfl
  | some a, none => rfl
  | some a, some b =>
    simp only [calculateEffectiveDrain, polarityMatchResult_comm a b]

/- ### Total capacity as sums over per-slot drains -/

/-- The effective drains of the occupied slots of a build, in slot order
(slots without a mod contribute nothing). -/
def drainsOf (slots : List ModSlot) : List Int :=
  slots.filterMap (fun s => s.mod.map (slotEffectiveDrain s))

theorem capacity_foldl (slots : List ModSlot) (cb td : Int) :
    slots.foldl capacityStep (cb, td) =
      (cb + (((drainsOf slots).filter (fun d => decide (d < 0))).map
              (fun d => (d.natAbs : Int))).sum,
       td + ((drainsOf slots).filter (fun d => decide (0 ≤ d))).sum) := by
  induction slots generalizing cb td with
  | nil => simp [drainsOf]
  | cons s rest ih =>
    match hmod : s.mod with
    | none =>
      simp only [List.foldl_cons, capacityStep, hmod, drainsOf, List.filterMap_cons,
        Option.map_none']
      exact ih cb td
    | some m =>
      simp only [List.foldl_cons, capacityStep, hmod, drainsOf, List.filterMap_cons,
        Option.map_some']
      rcases lt_or_le (slotEffectiveDrain s m) 0 with hneg | hpos
      · rw [if_pos hneg]
        rw [ih]
        simp only [drainsOf, List.filter_cons, decide_eq_true_eq]
        rw [if_pos (by simpa using hneg), if_neg (by simpa using not_le.mpr hneg)]
        simp only [List.map_cons, List.sum_cons, Prod.mk.injEq]
        exact ⟨by ring_nf, by ring_nf⟩
      · rw [if_neg (not_lt.mpr hpos)]
        rw [ih]
        simp only [drainsOf, List.filter_cons, decide_eq_true_eq]
        rw [if_neg (by simpa using not_lt.mpr hpos), if_pos (by simpa using hpos)]
        simp only [List.sum_cons, Prod.mk.injEq]
        exact ⟨by ring_nf, by ring_nf⟩

/-- C6: for every slot list, base capacity and reactor flag,
`calculateTotalCapacity` returns the base capacity doubled exactly when the
flag is set, the sum of absolute values of the negative per-slot effective
drains as `capacityBonus`, the sum of the non-negative ones as `totalDrain`,
and `remaining = baseCapacity + capacityBonus - totalDrain`; in particular
`totalCapacity([], 30, true) = {baseCapacity:60, capacityBonus:0,
totalDrain:0, remaining:60}`. -/
theorem totalCapacity_spec (slots : List ModSlot) (base : Int) (flag : Bool) :
    ((calculateTotalCapacity slots base flag).baseCapacity =
        (if flag then base * 2 else base) ∧
      (calculateTotalCapacity slots base flag).capacityBonus =
        (((drainsOf slots).filter (fun d => decide (d < 0))).map
          (fun d => (d.natAbs : Int))).sum ∧
      (calculateTotalCapacity slots base flag).totalDrain =
        ((drainsOf slots).filter (fun d => decide (0 ≤ d))).sum ∧
      (calculateTotalCapacity slots base flag).remaining =
        (calculateTotalCapacity slots base flag).baseCapacity +
          (calculateTotalCapacity slots base flag).capacityBonus -
          (calculateTotalCapacity slots base flag).totalDrain) ∧
    calculateTotalCapacity [] 30 true = ⟨60, 0, 0, 60⟩ := by
  refine ⟨⟨rfl, ?_, ?_, rfl⟩, by decide⟩
  · show (slots.foldl capacityStep (0, 0)).1 = _
    rw [capacity_foldl]
    exact zero_add _
  · show (slots.foldl capacityStep (0, 0)).2 = _
    rw [capacity_foldl]
    exact zero_add _

/- ### Forma counter (src/client/utils/formaCounter.ts) -/

structure SlotPolarity where
  polarity : Option String
  type : SlotType
deriving DecidableEq, Repr

structure FormaCount where
  regular : Nat
  universal : Nat
  umbra : Nat
  stance : Nat
  total : Nat
deriving DecidableEq, Repr

/-- The polarities present on a slot list, in slot order. `countMultiset` of
`src/client/utils/formaCounter.ts` counts exactly these (absent polarities are
skipped), so `(presentPolarities l).count k` is its count for key `k`. -/
def presentPolarities (slots : List SlotPolarity) : List String :=
  slots.filterMap (·.polarity)

/-- `calculateFormaCount` of `src/client/utils/formaCounter.ts`.
Every JavaScript counter here is a non-negative integer and every
`Math.max(0, a - b)` is `Nat` truncated subtraction. -/
def calculateFormaCount (defaults desired : List SlotPolarity) : FormaCount :=
  let defP := presentPolarities defaults
  let desP := presentPolarities desired
  let allKeys := (defP ++ desP).dedup
  let totalReused := (allKeys.map (fun k => min (defP.count k) (desP.count k))).sum
  let totalDefaults := defP.length
  let unmatchedDefaults := totalDefaults - totalReused
  let unmatchedRegular :=
    (REGULAR_POLARITIES.map (fun p => desP.count p - defP.count p)).sum
  let unmatchedUmbra := desP.count AP_UMBRA - defP.count AP_UMBRA
  let totalNewUniversal := desP.count AP_ANY - defP.count AP_ANY
  let defaultUniversalCapacity :=
    defaults.countP (fun s => s.polarity == some AP_ANY && isCapacitySlot s.type)
  let desiredUniversalCapacity :=
    desired.countP (fun s => s.polarity == some AP_ANY && isCapacitySlot s.type)
  let newStance := desiredUniversalCapacity - defaultUniversalCapacity
  let newUniversal := totalNewUniversal - newStance
  let excessClears :=
    unmatchedDefaults - unmatchedRegular - totalNewUniversal - unmatchedUmbra
  let regular := unmatchedRegular + excessClears
  { regular := regular
    universal := newUniversal
    umbra := unmatchedUmbra
    stance := newStance
    total := regular + newUniversal + unmatchedUmbra + newStance }

example :
    calculateFormaCount [⟨some AP_ATTACK, .general⟩] [⟨some AP_ATTACK, .general⟩] =
      ⟨0, 0, 0, 0, 0⟩ := by decide

example :
    calculateFormaCount [⟨none, .general⟩] [⟨some AP_ANY, .general⟩] =
      ⟨0, 1, 0, 0, 1⟩ := by decide

example :
    calculateFormaCount [⟨none, .aura⟩] [⟨some AP_ANY, .aura⟩] =
      ⟨0, 0, 0, 1, 1⟩ := by decide

/- ### Counting lemmas for the forma counter -/

theorem sum_map_ite_count (K : List String) (a : String) :
    (K.map (fun k => if a = k then 1 else 0)).sum = K.count a := by
  induction K with
  | nil => rfl
  | cons k K ih =>
    rw [List.map_cons, List.sum_cons, List.count_cons, ih]
    by_cases h : a = k
    · simp [h, Nat.add_comm]
    · simp [h, Ne.symm h]

theorem sum_count_of_nodup (K l : List String)
    (hK : K.Nodup) (hsub : ∀ a ∈ l, a ∈ K) :
    (K.map (fun k => l.count k)).sum = l.length := by
  induction l with
  | nil => simp
  | cons a l ih =>
    have hsub' : ∀ x ∈ l, x ∈ K := fun x hx => hsub x (List.mem_cons_of_mem a hx)
    have ha : a ∈ K := hsub a (List.mem_cons_self a l)
    have hpt : (K.map (fun k => (a :: l).count k)).sum =
        (K.map (fun k => l.count k + if a = k then 1 else 0)).sum := by
      refine congrArg _ (List.map_congr_left fun k _ => ?_)
      rw [List.count_cons]
      by_cases h : a = k
      · simp [h]
      · simp [h, Ne.symm h]
    rw [hpt, List.sum_map_add, ih hsub', sum_map_ite_count,
      List.count_eq_one_of_mem hK ha, List.length_cons]

/-- C3: for every slot-polarity layout and every permutation of it,
`calculateFormaCount` returns zero for every material category and
`total = 0`: relocating polarities between slots is free. -/
theorem formaCount_perm_free (defaults desired : List SlotPolarity)
    (h : defaults.Perm desired) :
    calculateFormaCount defaults desired = ⟨0, 0, 0, 0, 0⟩ := by
  have hP : (presentPolarities defaults).Perm (presentPolarities desired) :=
    h.filterMap _
  have hcount := hP.count_eq
  have hcap := h.countP_eq (fun s => s.polarity == some AP_ANY && isCapacitySlot s.type)
  have hreused :
      ((((presentPolarities defaults) ++ (presentPolarities desired)).dedup).map
        (fun k => min ((presentPolarities defaults).count k)
          ((presentPolarities desired).count k))).sum
        = (presentPolarities defaults).length := by
    have hm : (((presentPolarities defaults) ++ (presentPolarities desired)).dedup).map
        (fun k => min ((presentPolarities defaults).count k)
          ((presentPolarities desired).count k)) =
        (((presentPolarities defaults) ++ (presentPolarities desired)).dedup).map
          (fun k => (presentPolarities defaults).count k) :=
      List.map_congr_left fun k _ => by rw [← hcount k, min_self]
    rw [hm]
    exact sum_count_of_nodup _ _ (List.nodup_dedup _)
      (fun a ha => List.mem_dedup.mpr (List.mem_append_left _ ha))
  have hreg :
      ((REGULAR_POLARITIES.map (fun p => (presentPolarities desired).count p -
        (presentPolarities defaults).count p))).sum = 0 := by
    have hm : REGULAR_POLARITIES.map (fun p => (presentPolarities desired).count p -
        (presentPolarities defaults).count p) =
        REGULAR_POLARITIES.map (fun _ => 0) :=
      List.map_congr_left fun p _ => by rw [hcount p, Nat.sub_self]
    simp [hm]
  simp only [calculateFormaCount]
  rw [hreused, hreg, hcap, hcount AP_UMBRA, hcount AP_ANY]
  simp only [FormaCount.mk.injEq]
  refine ⟨by omega, by omega, by omega, by omega, by omega⟩

/-- Witness for C3: swapping two slots (a Madurai general slot and an exilus
slot with a Naramon polarity) is a permutation and costs nothing. -/
theorem formaCount_perm_free_witness :
    calculateFormaCount
      [⟨some AP_ATTACK, .general⟩, ⟨some AP_TACTIC, .exilus⟩]
      [⟨some AP_TACTIC, .exilus⟩, ⟨some AP_ATTACK, .general⟩] = ⟨0, 0, 0, 0, 0⟩ :=
  formaCount_perm_free _ _ (by decide)

/- ### Adding one universal polarity -/

/-- C7: starting from a layout with no universal polarity anywhere, turning one
unpolarized slot of type `t` into a universal-polarity slot costs exactly one
forma: an Omni forma (`universal`) when `t` is a general/exilus slot, a Stance
forma (`stance`) when `t` is a capacity (aura/stance/posture) slot; in both
cases `total = 1` and no regular or umbra forma is charged. -/
theorem formaCount_new_universal (pre post : List SlotPolarity) (t : SlotType)
    (hno : ∀ s ∈ pre ++ post, s.polarity ≠ some AP_ANY) :
    calculateFormaCount (pre ++ (⟨none, t⟩ : SlotPolarity) :: post)
      (pre ++ (⟨some AP_ANY, t⟩ : SlotPolarity) :: post) =
      ⟨0, if isCapacitySlot t then 0 else 1, 0,
        if isCapacitySlot t then 1 else 0, 1⟩ := by
  have hregne : ∀ p ∈ REGULAR_POLARITIES, p ≠ AP_ANY := by decide
  have hUA : AP_UMBRA ≠ AP_ANY := by decide
  have hpre : AP_ANY ∉ presentPolarities pre := by
    intro hmem
    obtain ⟨s, hs, hps⟩ := List.mem_filterMap.mp hmem
    exact hno s (List.mem_append_left _ hs) hps
  have hpost : AP_ANY ∉ presentPolarities post := by
    intro hmem
    obtain ⟨s, hs, hps⟩ := List.mem_filterMap.mp hmem
    exact hno s (List.mem_append_right _ hs) hps
  have hdef : presentPolarities (pre ++ (⟨none, t⟩ : SlotPolarity) :: post) =
      presentPolarities pre ++ presentPolarities post := by
    simp [presentPolarities, List.filterMap_append]
  have hdes : presentPolarities (pre ++ (⟨some AP_ANY, t⟩ : SlotPolarity) :: post) =
      presentPolarities pre ++ AP_ANY :: presentPolarities post := by
    simp [presentPolarities, List.filterMap_append]
  have hcnt : ∀ k, k ≠ AP_ANY →
      (presentPolarities pre ++ AP_ANY :: presentPolarities post).count k =
        (presentPolarities pre ++ presentPolarities post).count k := by
    intro k hk
    simp [List.count_append, List.count_cons, Ne.symm hk]
  have hcntANY1 :
      (presentPolarities pre ++ AP_ANY :: presentPolarities post).count AP_ANY = 1 := by
    simp [List.count_append, List.count_cons,
      List.count_eq_zero.mpr hpre, List.count_eq_zero.mpr hpost]
  have hcntANY0 :
      (presentPolarities pre ++ presentPolarities post).count AP_ANY = 0 := by
    simp [List.count_append,
      List.count_eq_zero.mpr hpre, List.count_eq_zero.mpr hpost]
  have hle : ∀ k, (presentPolarities pre ++ presentPolarities post).count k ≤
      (presentPolarities pre ++ AP_ANY :: presentPolarities post).count k := by
    intro k
    by_cases hk : k = AP_ANY
    · subst hk
      rw [hcntANY1, hcntANY0]
      omega
    · rw [hcnt k hk]
  have hreused :
      ((((presentPolarities pre ++ presentPolarities post) ++
          (presentPolarities pre ++ AP_ANY :: presentPolarities post)).dedup).map
        (fun k => min ((presentPolarities pre ++ presentPolarities post).count k)
          ((presentPolarities pre ++ AP_ANY :: presentPolarities post).count k))).sum
        = (presentPolarities pre ++ presentPolarities post).length := by
    have hm : (((presentPolarities pre ++ presentPolarities post) ++
          (presentPolarities pre ++ AP_ANY :: presentPolarities post)).dedup).map
        (fun k => min ((presentPolarities pre ++ presentPolarities post).count k)
          ((presentPolarities pre ++ AP_ANY :: presentPolarities post).count k)) =
        (((presentPolarities pre ++ presentPolarities post) ++
          (presentPolarities pre ++ AP_ANY :: presentPolarities post)).dedup).map
        (fun k => (presentPolarities pre ++ presentPolarities post).count k) :=
      List.map_congr_left fun k _ => min_eq_left (hle k)
    rw [hm]
    exact sum_count_of_nodup _ _ (List.nodup_dedup _)
      (fun a ha => List.mem_dedup.mpr (List.mem_append_left _ ha))
  have hreg : (REGULAR_POLARITIES.map (fun p =>
      (presentPolarities pre ++ AP_ANY :: presentPolarities post).count p -
        (presentPolarities pre ++ presentPolarities post).count p)).sum = 0 := by
    have hm : REGULAR_POLARITIES.map (fun p =>
        (presentPolarities pre ++ AP_ANY :: presentPolarities post).count p -
          (presentPolarities pre ++ presentPolarities post).count p) =
        REGULAR_POLARITIES.map (fun _ => 0) :=
      List.map_congr_left fun p hp => by rw [hcnt p (hregne p hp), Nat.sub_self]
    rw [hm]
    simp
  have humb : (presentPolarities pre ++ AP_ANY :: presentPolarities post).count AP_UMBRA -
      (presentPolarities pre ++ presentPolarities post).count AP_UMBRA = 0 := by
    rw [hcnt _ hUA, Nat.sub_self]
  have hany : (presentPolarities pre ++ AP_ANY :: presentPolarities post).count AP_ANY -
      (presentPolarities pre ++ presentPolarities post).count AP_ANY = 1 := by
    rw [hcntANY1, hcntANY0]
  have hcapdef : (pre ++ (⟨none, t⟩ : SlotPolarity) :: post).countP
      (fun s => s.polarity == some AP_ANY && isCapacitySlot s.type) = 0 := by
    rw [List.countP_eq_zero]
    intro s hs
    rcases List.mem_append.mp hs with h | h
    · simp [hno s (List.mem_append_left _ h)]
    · rcases List.mem_cons.mp h with h | h
      · subst h
        simp
      · simp [hno s (List.mem_append_right _ h)]
  have hcapdes : (pre ++ (⟨some AP_ANY, t⟩ : SlotPolarity) :: post).countP
      (fun s => s.polarity == some AP_ANY && isCapacitySlot s.type) =
      if isCapacitySlot t then 1 else 0 := by
    rw [List.countP_append, List.countP_cons]
    have h1 : pre.countP
        (fun s => s.polarity == some AP_ANY && isCapacitySlot s.type) = 0 :=
      List.countP_eq_zero.mpr fun s hs => by
        simp [hno s (List.mem_append_left _ hs)]
    have h2 : post.countP
        (fun s => s.polarity == some AP_ANY && isCapacitySlot s.type) = 0 :=
      List.countP_eq_zero.mpr fun s hs => by
        simp [hno s (List.mem_append_right _ hs)]
    rcases Bool.eq_false_or_eq_true (isCapacitySlot t) with hc | hc <;>
      simp [h1, h2, hc]
  simp only [calculateFormaCount, hdef, hdes]
  rw [hreused, hreg, humb, hany, hcapdef, hcapdes]
  rcases Bool.eq_false_or_eq_true (isCapacitySlot t) with hc | hc <;>
    simp [hc, FormaCount.mk.injEq]

/-- Witness for C7: a layout with one Madurai general slot and one empty
general slot; polarizing the empty slot with a universal polarity costs one
Omni forma; with an empty aura slot instead it costs one Stance forma. -/
theorem formaCount_new_universal_witness :
    calculateFormaCount
      [⟨some AP_ATTACK, .general⟩, (⟨none, .general⟩ : SlotPolarity)]
      [⟨some AP_ATTACK, .general⟩, (⟨some AP_ANY, .general⟩ : SlotPolarity)] =
      ⟨0, 1, 0, 0, 1⟩ ∧
    calculateFormaCount
      [⟨some AP_ATTACK, .general⟩, (⟨none, .aura⟩ : SlotPolarity)]
      [⟨some AP_ATTACK, .general⟩, (⟨some AP_ANY, .aura⟩ : SlotPolarity)] =
      ⟨0, 0, 0, 1, 1⟩ := by
  constructor
  · exact formaCount_new_universal [⟨some AP_ATTACK, .general⟩] [] .general (by decide)
  · exact formaCount_new_universal [⟨some AP_ATTACK, .general⟩] [] .aura (by decide)

/- ### Elemental combination engine (src/client/utils/elements.ts) -/

def DAMAGE_TYPES : List String :=
  ["Impact", "Puncture", "Slash", "Heat", "Cold", "Electricity", "Toxin",
   "Blast", "Radiation", "Gas", "Magnetic", "Viral", "Corrosive", "Void",
   "Tau", "Cinematic", "ShieldDrain", "HealthDrain", "EnergyDrain", "True"]

def PRIMARY_ELEMENTS : List String := ["Heat", "Cold", "Electricity", "Toxin"]

def ELEMENT_PRIORITY : List String := ["Heat", "Cold", "Electricity", "Toxin"]

/-- `ELEMENT_COMBINATIONS` of `src/client/types/warframe.ts`, as
`(result, a, b)` triples in object-literal insertion order. -/
def ELEMENT_COMBINATIONS : List (String × String × String) :=
  [("Blast", "Heat", "Cold"), ("Corrosive", "Electricity", "Toxin"),
   ("Gas", "Heat", "Toxin"), ("Magnetic", "Cold", "Electricity"),
   ("Radiation", "Electricity", "Heat"), ("Viral", "Cold", "Toxin")]

structure ElementMod where
  slotIndex : Int
  element : String
  value : ℚ
deriving DecidableEq, Repr

structure DamageEntry where
  type : String
  value : ℚ
deriving DecidableEq, Repr

structure ElementEntry where
  element : String
  value : ℚ
  isInnate : Bool
deriving DecidableEq, Repr

/-- JavaScript `Map.get`: the value at a key, if present. -/
def mapGet (m : List (String × ℚ)) (k : String) : Option ℚ :=
  (m.find? (fun p => p.1 == k)).map (·.2)

/-- JavaScript `Map.set`: replaces the value in place when the key exists,
otherwise appends the new key at the end (insertion order is preserved). -/
def mapSet (m : List (String × ℚ)) (k : String) (v : ℚ) : List (String × ℚ) :=
  if m.any (fun p => p.1 == k) then
    m.map (fun p => if p.1 == k then (k, v) else p)
  else m ++ [(k, v)]

/-- Stable insertion: before the first element with a strictly larger key.
This is the order produced by JavaScript's stable `Array.prototype.sort`
with comparator `key a - key b`. -/
def insertByKey {α : Type} (key : α → Int) (x : α) : List α → List α
  | [] => [x]
  | y :: ys => if key x ≤ key y then x :: y :: ys else y :: insertByKey key x ys

def sortByKey {α : Type} (key : α → Int) : List α → List α
  | [] => []
  | x :: xs => insertByKey key x (sortByKey key xs)

/-- Embeds `[...elementMods].sort((a, b) => a.slotIndex - b.slotIndex)`:
the first component is the sorted copy the function works on, the second is
the caller's array after the call — unchanged, because the spread copies. -/
def spreadSort (mods : List ElementMod) : List ElementMod × List ElementMod :=
  (sortByKey (·.slotIndex) mods, mods)

/-- `identifyInnateElements` of `src/client/utils/elements.ts`: primary
elements read from base-damage indices 3–6, sorted by HCET priority. -/
def identifyInnateElements (baseDamage : List ℚ) : List (String × ℚ) :=
  let result := (List.range PRIMARY_ELEMENTS.length).foldl (fun r i =>
    let value := baseDamage.getD (3 + i) 0
    if 0 < value then r ++ [(PRIMARY_ELEMENTS.getD i "", value)] else r) []
  sortByKey (fun p => (ELEMENT_PRIORITY.indexOf p.1 : Int)) result

/-- `buildElementSequence` of `src/client/utils/elements.ts`: mod elements in
slot order (absorbing a matching unconsumed innate element into the mod's
entry), then the remaining innate elements. The accumulator's second
component is the `consumedInnate` set. -/
def buildElementSequence (mods : List ElementMod)
    (innate : List (String × ℚ)) : List ElementEntry :=
  let acc := mods.foldl (fun (acc : List ElementEntry × List String) m =>
    match innate.find? (fun ie => ie.1 == m.element && !(acc.2.contains ie.1)) with
    | some ie => (acc.1 ++ [⟨m.element, m.value + ie.2, false⟩], acc.2 ++ [m.element])
    | none => (acc.1 ++ [⟨m.element, m.value, false⟩], acc.2)) ([], [])
  acc.1 ++ (innate.filter (fun ie => !(acc.2.contains ie.1))).map
    (fun ie => ⟨ie.1, ie.2, true⟩)

/-- `findCombination` of `src/client/utils/elements.ts`. -/
def findCombination (a b : String) : Option String :=
  (ELEMENT_COMBINATIONS.find? (fun r =>
    (a == r.2.1 && b == r.2.2) || (a == r.2.2 && b == r.2.1))).map (·.1)

/-- `combineElements` of `src/client/utils/elements.ts`: single left-to-right
pass; a combined pair is emitted and both entries skipped, otherwise the
current entry is emitted as primary damage. -/
def combineElements : List ElementEntry → List DamageEntry
  | [] => []
  | [e] => [⟨e.element, e.value⟩]
  | e1 :: e2 :: rest =>
    match findCombination e1.element e2.element with
    | some c => ⟨c, e1.value + e2.value⟩ :: combineElements rest
    | none => ⟨e1.element, e1.value⟩ :: combineElements (e2 :: rest)

/-- The seeding loop of `calculateFinalDamage`: every index `i < 20` with
`baseDamage[i] > 0` puts `DAMAGE_TYPES[i]` into the output map (the code
comment says indices 0–2, but the loop runs over all of `DAMAGE_TYPES`). -/
def seedBaseDamage (baseDamage : List ℚ) : List (String × ℚ) :=
  (List.range DAMAGE_TYPES.length).foldl (fun out i =>
    let val := baseDamage.getD i 0
    if 0 < val then mapSet out (DAMAGE_TYPES.getD i "") val else out) []

/-- The multiplier loop of `calculateFinalDamage`: each entry scales an
already-positive output value by `1 + mult`. -/
def applyMultipliers (out : List (String × ℚ))
    (damageMultipliers : List (String × ℚ)) : List (String × ℚ) :=
  damageMultipliers.foldl (fun out tm =>
    let current := (mapGet out tm.1).getD 0
    if 0 < current then mapSet out tm.1 (current * (1 + tm.2)) else out) out

/-- JavaScript `Math.round` on an exact rational: `⌊q + 1/2⌋`, computed as an
integer division (`jsRound_eq` below). -/
def jsRound (q : ℚ) : Int := (2 * q.num + (q.den : Int)) / (2 * (q.den : Int))

/-- `Math.round(value * 10) / 10` of the final output loop. -/
def roundTo1 (v : ℚ) : ℚ := ((jsRound (v * 10) : ℚ)) / 10

/-- `calculateFinalDamage` of `src/client/utils/elements.ts`, extended with
the caller's `elementMods` array after the call as second component. -/
def calculateFinalDamageExt (baseDamage : List ℚ) (elementMods : List ElementMod)
    (damageMultipliers : List (String × ℚ)) : List DamageEntry × List ElementMod :=
  let output := applyMultipliers (seedBaseDamage baseDamage) damageMultipliers
  let innate := identifyInnateElements baseDamage
  let sorted := spreadSort elementMods
  let seq := buildElementSequence sorted.1 innate
  let combined := combineElements seq
  let output2 := combined.foldl (fun out c =>
    mapSet out c.type ((mapGet out c.type).getD 0 + c.value)) output
  (output2.foldl (fun res p =>
    if 0 < p.2 then res ++ [⟨p.1, roundTo1 p.2⟩] else res) [],
   sorted.2)

def calculateFinalDamage (baseDamage : List ℚ) (elementMods : List ElementMod)
    (damageMultipliers : List (String × ℚ)) : List DamageEntry :=
  (calculateFinalDamageExt baseDamage elementMods damageMultipliers).1

unseal Rat.add Rat.mul Rat.inv Rat.sub Rat.ofScientific in
example : calculateFinalDamage [25, 10, 5] [] [] =
    [⟨"Impact", 25⟩, ⟨"Puncture", 10⟩, ⟨"Slash", 5⟩] := by decide

unseal Rat.add Rat.mul Rat.inv Rat.sub Rat.ofScientific in
example : calculateFinalDamage [100] [⟨0, "Heat", 60⟩, ⟨1, "Cold", 30⟩] [] =
    [⟨"Impact", 100⟩, ⟨"Blast", 90⟩] := by decide

/- ### Sortedness of the processed copy -/

theorem insertByKey_perm {α : Type} (key : α → Int) (x : α) (l : List α) :
    (insertByKey key x l).Perm (x :: l) := by
  induction l with
  | nil => exact List.Perm.refl _
  | cons y ys ih =>
    unfold insertByKey
    by_cases h : key x ≤ key y
    · rw [if_pos h]
    · rw [if_neg h]
      exact (ih.cons y).trans (List.Perm.swap x y ys)

theorem sortByKey_perm {α : Type} (key : α → Int) (l : List α) :
    (sortByKey key l).Perm l := by
  induction l with
  | nil => exact List.Perm.refl _
  | cons x xs ih =>
    unfold sortByKey
    exact (insertByKey_perm key x (sortByKey key xs)).trans (ih.cons x)

theorem insertByKey_pairwise {α : Type} (key : α → Int) (x : α) (l : List α)
    (hl : l.Pairwise (fun a b => key a ≤ key b)) :
    (insertByKey key x l).Pairwise (fun a b => key a ≤ key b) := by
  induction l with
  | nil => simp [insertByKey]
  | cons y ys ih =>
    unfold insertByKey
    rcases List.pairwise_cons.mp hl with ⟨hy, hys⟩
    by_cases h : key x ≤ key y
    · rw [if_pos h]
      refine List.pairwise_cons.mpr ⟨?_, hl⟩
      intro z hz
      rcases List.mem_cons.mp hz with rfl | hz
      · exact h
      · exact le_trans h (hy z hz)
    · rw [if_neg h]
      refine List.pairwise_cons.mpr ⟨?_, ih hys⟩
      intro z hz
      have hz' : z ∈ x :: ys := (insertByKey_perm key x ys).mem_iff.mp hz
      rcases List.mem_cons.mp hz' with rfl | hz'
      · exact (lt_of_not_le h).le
      · exact hy z hz'

theorem sortByKey_pairwise {α : Type} (key : α → Int) (l : List α) :
    (sortByKey key l).Pairwise (fun a b => key a ≤ key b) := by
  induction l with
  | nil => simp [sortByKey]
  | cons x xs ih =>
    unfold sortByKey
    exact insertByKey_pairwise key x (sortByKey key xs) ih

/- ### Claim theorems for the elements engine -/

/-- C10: `calculateFinalDamage` never mutates its `elementMods` argument:
the caller's array after the call is the input list, unchanged — the source
sorts a spread copy `[...elementMods].sort(...)` — while the copy it
processes is a permutation of the input ordered by slot index. -/
theorem finalDamage_preserves_mods :
    (∀ (baseDamage : List ℚ) (elementMods : List ElementMod)
        (damageMultipliers : List (String × ℚ)),
      (calculateFinalDamageExt baseDamage elementMods damageMultipliers).2 =
        elementMods) ∧
    (∀ elementMods : List ElementMod,
      (spreadSort elementMods).1.Perm elementMods ∧
      (spreadSort elementMods).1.Pairwise (fun x y => x.slotIndex ≤ y.slotIndex)) := by
  refine ⟨fun _ _ _ => rfl, fun mods => ⟨sortByKey_perm _ mods, sortByKey_pairwise _ mods⟩⟩

unseal Rat.add Rat.mul Rat.inv Rat.sub Rat.ofScientific in
/-- C1 (code bug): with an empty `elementMods` list, a weapon with an innate
primary element comes out with that element at twice its base value.
The seeding loop writes every positive damage index into the output map (the
comment above it says indices 0–2 only), and the merge loop then adds each
innate primary element a second time (the comment there announces removing
consumed innate primaries, but nothing is ever removed). With baseDamage
Heat = 10 (index 3) and no mods the code yields `Heat 20` where the claim
(and the spec's edge case) requires the base entries unamplified, `Heat 10`. -/
theorem finalDamage_innate_double_counted :
    calculateFinalDamage [0, 0, 0, 10] [] [] = [⟨"Heat", 20⟩] ∧
    calculateFinalDamage [25, 0, 0, 10] [] [] = [⟨"Impact", 25⟩, ⟨"Heat", 20⟩] ∧
    calculateFinalDamage [0, 0, 0, 10] [] [] ≠ [⟨"Heat", 10⟩] :=
  ⟨by decide, by decide, by decide⟩

/- ### Mod effect parser (modelled from the spec) -/

/-- The fixed-shape bag of numeric effect deltas of §4.1 of the spec; every
field defaults to 0. -/
structure EffectBag where
  baseDamage : ℚ := 0
  multishot : ℚ := 0
  critChance : ℚ := 0
  critDamage : ℚ := 0
  fireRate : ℚ := 0
  statusChance : ℚ := 0
  health : ℚ := 0
  shield : ℚ := 0
  armor : ℚ := 0
  sprintSpeed : ℚ := 0
  abilityStrength : ℚ := 0
  abilityDuration : ℚ := 0
  abilityEfficiency : ℚ := 0
  abilityRange : ℚ := 0
deriving DecidableEq, Repr

def zeroEffectBag : EffectBag := {}

def skipWs : List Char → List Char
  | c :: cs =>
    if c = ' ' ∨ c = '\n' ∨ c = '\t' ∨ c = '\r' then skipWs cs else c :: cs
  | [] => []

/-- Body of a JSON string after the opening quote: collects characters until
the closing quote, a backslash escaping the next character. -/
def parseStringBody : List Char → Option (String × List Char)
  | [] => none
  | '"' :: cs => some ("", cs)
  | '\\' :: c :: cs =>
    (parseStringBody cs).map (fun r =>
      (String.mk ((if c = 'n' then '\n' else if c = 't' then '\t' else c) :: r.1.data),
        r.2))
  | c :: cs => (parseStringBody cs).map (fun r => (String.mk (c :: r.1.data), r.2))

/-- One or more comma-separated JSON strings followed by `]`, fuelled by the
remaining input length. -/
def parseItemsAux : Nat → List Char → Option (List String × List Char)
  | 0, _ => none
  | fuel + 1, cs =>
    match skipWs cs with
    | '"' :: cs1 =>
      match parseStringBody cs1 with
      | none => none
      | some (s, cs2) =>
        match skipWs cs2 with
        | ',' :: cs3 =>
          match parseItemsAux fuel cs3 with
          | none => none
          | some (ss, cs4) => some (s :: ss, cs4)
        | ']' :: cs3 => some ([s], cs3)
        | _ => none
    | _ => none

/-- Modelled from the spec: the source file `modStatParser.ts` is not under
`src/` (only its test file is), so the rank-indexed text-array encoding of
§4.1 is modelled as a JSON array of strings; anything else fails to decode. -/
def parseStringArray (input : String) : Option (List String) :=
  match skipWs input.data with
  | '[' :: cs =>
    match skipWs cs with
    | ']' :: cs1 => if skipWs cs1 = [] then some [] else none
    | cs1 =>
      match parseItemsAux (cs1.length + 1) cs1 with
      | none => none
      | some (ss, rest) => if skipWs rest = [] then some ss else none
  | _ => none

/-- Modelled from the spec: an absent description, like an unparseable one,
decodes to `none`. -/
def decodeTextArray : Option String → Option (List String)
  | none => none
  | some s => parseStringArray s

inductive StatKey
  | baseDamage
  | multishot
  | critChance
  | critDamage
  | fireRate
  | statusChance
  | health
  | shield
  | armor
  | sprintSpeed
  | abilityStrength
  | abilityDuration
  | abilityEfficiency
  | abilityRange
deriving DecidableEq, Repr

/-- Modelled from the spec: the ordered `(label, statKey)` rule table of §4.1;
"Fire Rate" and "Attack Speed" map to the same field. -/
def STAT_RULES : List (String × StatKey) :=
  [("Damage", .baseDamage), ("Multishot", .multishot),
   ("Critical Chance", .critChance), ("Critical Damage", .critDamage),
   ("Fire Rate", .fireRate), ("Attack Speed", .fireRate),
   ("Status Chance", .statusChance), ("Health", .health),
   ("Shield Capacity", .shield), ("Armor", .armor),
   ("Sprint Speed", .sprintSpeed), ("Ability Strength", .abilityStrength),
   ("Ability Duration", .abilityDuration),
   ("Ability Efficiency", .abilityEfficiency), ("Ability Range", .abilityRange)]

def applyStat (bag : EffectBag) (k : StatKey) (v : ℚ) : EffectBag :=
  match k with
  | .baseDamage => { bag with baseDamage := bag.baseDamage + v }
  | .multishot => { bag with multishot := bag.multishot + v }
  | .critChance => { bag with critChance := bag.critChance + v }
  | .critDamage => { bag with critDamage := bag.critDamage + v }
  | .fireRate => { bag with fireRate := bag.fireRate + v }
  | .statusChance => { bag with statusChance := bag.statusChance + v }
  | .health => { bag with health := bag.health + v }
  | .shield => { bag with shield := bag.shield + v }
  | .armor => { bag with armor := bag.armor + v }
  | .sprintSpeed => { bag with sprintSpeed := bag.sprintSpeed + v }
  | .abilityStrength => { bag with abilityStrength := bag.abilityStrength + v }
  | .abilityDuration => { bag with abilityDuration := bag.abilityDuration + v }
  | .abilityEfficiency => { bag with abilityEfficiency := bag.abilityEfficiency + v }
  | .abilityRange => { bag with abilityRange := bag.abilityRange + v }

def takeDigits : List Char → List Char × List Char
  | c :: rest =>
    if c.isDigit then
      let r := takeDigits rest
      (c :: r.1, r.2)
    else ([], c :: rest)
  | [] => ([], [])

def digitsToNat (ds : List Char) : Nat :=
  ds.foldl (fun n c => n * 10 + (c.toNat - 48)) 0

/-- Decimal percentage magnitude: digits with an optional fractional part. -/
def parseNumber (cs : List Char) : Option (ℚ × List Char) :=
  let ip := takeDigits cs
  if ip.1 = [] then none
  else
    match ip.2 with
    | '.' :: rest2 =>
      let fp := takeDigits rest2
      if fp.1 = [] then none
      else some ((digitsToNat ip.1 : ℚ) +
        (digitsToNat fp.1 : ℚ) / ((10 : ℚ) ^ fp.1.length), fp.2)
    | _ => some ((digitsToNat ip.1 : ℚ), ip.2)

/-- Strip the optional markup/color tag token of §4.1 before matching. -/
def stripTag (cs : List Char) : List Char :=
  match cs with
  | '<' :: rest => skipWs (dropTag rest)
  | _ => cs
where
  dropTag : List Char → List Char
    | [] => []
    | '>' :: rest => rest
    | _ :: rest => dropTag rest

/-- Both-ends whitespace trim on a character list. -/
def trimChars (cs : List Char) : List Char :=
  (skipWs (skipWs cs).reverse).reverse

/-- Split a character list into lines at newline characters. -/
def splitLines : List Char → List (List Char)
  | [] => [[]]
  | '\n' :: rest => [] :: splitLines rest
  | c :: rest =>
    match splitLines rest with
    | [] => [[c]]
    | l :: ls => (c :: l) :: ls

/-- Modelled from the spec, §4.1: a line of the shape `<sign><number>% <Label>`
(an optional markup tag stripped first) contributes `sign * number / 100` to
the field of the label's rule; unmatched lines are ignored. -/
def parseEffectLine (bag : EffectBag) (line : List Char) : EffectBag :=
  let cs := stripTag (skipWs line)
  let signed : Option (ℚ × List Char) :=
    match cs with
    | '+' :: rest => (parseNumber rest).map (fun r => (r.1, r.2))
    | '-' :: rest => (parseNumber rest).map (fun r => (-r.1, r.2))
    | _ => none
  match signed with
  | none => bag
  | some (n, rest) =>
    match rest with
    | '%' :: rest2 =>
      match STAT_RULES.find? (fun r => r.1 == String.mk (trimChars rest2)) with
      | some r => applyStat bag r.2 (n / 100)
      | none => bag
    | _ => bag

/-- Modelled from the spec: one rank's text block, split into lines, each
matched against the rule table; matches accumulate by summation. -/
def parseBlock (block : String) : EffectBag :=
  (splitLines block.data).foldl parseEffectLine zeroEffectBag

/-- Modelled from the spec: `parseModEffects(mod, rank)` of
`modStatParser.ts` (not under `src/`): decode the rank-indexed text-array
description; on failure every field is 0; otherwise parse the block at index
`min(rank, fusion_limit)`. -/
def parseModEffects (m : Mod) (rank : Int) : EffectBag :=
  match decodeTextArray m.description with
  | none => zeroEffectBag
  | some blocks =>
    parseBlock (blocks.getD (min rank (m.fusion_limit.getD 0)).toNat "")

unseal Rat.add Rat.mul Rat.inv Rat.sub Rat.ofScientific in
example :
    parseModEffects ⟨none, some 1, none,
      some "[\"+100% Damage\", \"+165% Damage\"]"⟩ 1 =
      { baseDamage := 165 / 100 } := by decide

unseal Rat.add Rat.mul Rat.inv Rat.sub Rat.ofScientific in
example :
    parseModEffects ⟨none, some 0, none,
      some "[\"+60% Multishot\\n-10% Fire Rate\"]"⟩ 5 =
      { multishot := 60 / 100, fireRate := -(10 / 100) } := by decide

/-- C9: for every mod whose description does not decode as the rank-indexed
text-array encoding — invalid JSON or absent — and every rank,
`parseModEffects` returns the all-zero effect bag (it is a total function, so
it never throws); `"not json"` and an absent description both fail to decode. -/
theorem parseModEffects_unparseable_zero :
    (∀ (m : Mod) (rank : Int), decodeTextArray m.description = none →
      parseModEffects m rank = zeroEffectBag) ∧
    decodeTextArray (some "not json") = none ∧
    decodeTextArray none = none := by
  refine ⟨?_, by decide, rfl⟩
  intro m rank h
  unfold parseModEffects
  rw [h]

/-- Witness for C9: a mod whose description is the unparseable string
`"not json"` parses to the all-zero bag at rank 0. -/
theorem parseModEffects_unparseable_zero_witness :
    parseModEffects ⟨none, none, none, some "not json"⟩ 0 = zeroEffectBag :=
  parseModEffects_unparseable_zero.1 ⟨none, none, none, some "not json"⟩ 0 (by decide)

/- ### Riven verifier (modelled from the spec) -/

structure RivenStat where
  stat : String
  value : ℚ
  isNegative : Bool
deriving DecidableEq, Repr

structure RivenConfig where
  polarity : String
  positive : List RivenStat
  negative : Option RivenStat
deriving DecidableEq, Repr

structure RivenVerifyResult where
  adjusted : Bool
  config : RivenConfig
deriving DecidableEq, Repr

/-- Modelled from the spec: shape validation of §4.6 — 1 to 3 positive stats,
pairwise distinct; at most one negative stat, distinct from the positives.
A failure is a descriptive message returned as data. -/
def validateRivenConfig (config : RivenConfig) : Option String :=
  if config.positive.length < 1 ∨ 3 < config.positive.length then
    some "a riven needs between 1 and 3 positive stats"
  else if ¬ (config.positive.map (·.stat)).Nodup then
    some "duplicate positive stats"
  else
    match config.negative with
    | some n =>
      if n.stat ∈ config.positive.map (·.stat) then
        some "the negative stat duplicates a positive stat"
      else none
    | none => none

/-- Modelled from the spec: clamp one rolled value to the maximum magnitude
for its slot, preserving sign — a positive stat is forced into `[0, cap]`,
the negative stat into `[-cap, 0]`. -/
def clampValue (isNeg : Bool) (cap v : ℚ) : ℚ :=
  if isNeg then max (min v 0) (-cap) else min (max v 0) cap

/-- Modelled from the spec: `verifyAndAdjustRivenConfig` of `riven.ts`, which
is not under `src/` (only its test file and caller are). `caps` stands for the
external game-balance table of §4.6: the maximum magnitude per equipment
category, stat name, positive-stat count and negative-stat presence (the spec
leaves its numeric values external). Validation runs first and surfaces a
message as data; otherwise every value is clamped sign-preservingly and
`adjusted` records whether any value changed. -/
def verifyAndAdjustRivenConfig (caps : String → String → Nat → Bool → ℚ)
    (config : RivenConfig) (category : String) :
    Except String RivenVerifyResult :=
  match validateRivenConfig config with
  | some msg => .error msg
  | none =>
    let n := config.positive.length
    let hasNeg := config.negative.isSome
    let posAdj := config.positive.map (fun s =>
      { s with value := clampValue false (caps category s.stat n hasNeg) s.value })
    let negAdj := config.negative.map (fun s =>
      { s with value := clampValue true (caps category s.stat n hasNeg) s.value })
    let adjusted :=
      decide (posAdj ≠ config.positive) || decide (negAdj ≠ config.negative)
    .ok ⟨adjusted, ⟨config.polarity, posAdj, negAdj⟩⟩

unseal Rat.add Rat.mul Rat.inv Rat.sub Rat.ofScientific in
example :
    verifyAndAdjustRivenConfig (fun _ _ _ _ => 100)
      ⟨"AP_ATTACK", [⟨"Damage", 500, false⟩], none⟩ "primary" =
      .ok ⟨true, ⟨"AP_ATTACK", [⟨"Damage", 100, false⟩], none⟩⟩ := rfl

unseal Rat.add Rat.mul Rat.inv Rat.sub Rat.ofScientific in
example :
    verifyAndAdjustRivenConfig (fun _ _ _ _ => 100)
      ⟨"AP_ATTACK", [⟨"Damage", 90, false⟩, ⟨"Damage", 80, false⟩], none⟩
      "primary" = .error "duplicate positive stats" := rfl

/-- C5: for every cap table with non-negative entries, configuration and
category: a structurally invalid configuration is answered with the
validation message (data, not an exception; clamping is never reached), and a
valid one is clamped so that every positive stat lands in `[0, cap]`, the
negative stat in `[-cap, 0]`, with `adjusted = true` exactly when some value
changed. -/
theorem riven_verify_clamp (caps : String → String → Nat → Bool → ℚ)
    (config : RivenConfig) (category : String)
    (hcaps : ∀ c s n b, 0 ≤ caps c s n b) :
    (∀ msg, validateRivenConfig config = some msg →
      verifyAndAdjustRivenConfig caps config category = .error msg) ∧
    (validateRivenConfig config = none →
      ∃ r, verifyAndAdjustRivenConfig caps config category = .ok r ∧
        (∀ s ∈ r.config.positive, 0 ≤ s.value ∧
          s.value ≤ caps category s.stat config.positive.length
            config.negative.isSome) ∧
        (∀ s, r.config.negative = some s → s.value ≤ 0 ∧
          -(caps category s.stat config.positive.length config.negative.isSome)
            ≤ s.value) ∧
        (r.adjusted = true ↔ r.config ≠ config)) := by
  obtain ⟨pol, pos, neg⟩ := config
  constructor
  · intro msg h
    simp only [verifyAndAdjustRivenConfig, h]
  · intro h
    simp only [verifyAndAdjustRivenConfig, h]
    refine ⟨_, rfl, ?_, ?_, ?_⟩
    · intro s hs
      obtain ⟨s0, _, rfl⟩ := List.mem_map.mp hs
      exact ⟨le_min (le_max_right _ _) (hcaps _ _ _ _), min_le_right _ _⟩
    · intro s hs
      obtain ⟨s0, hs0, rfl⟩ := Option.map_eq_some'.mp hs
      exact ⟨max_le (min_le_right _ _) (neg_nonpos.mpr (hcaps _ _ _ _)),
        le_max_right _ _⟩
    · rw [Bool.or_eq_true, decide_eq_true_eq, decide_eq_true_eq]
      constructor
      · rintro (hpos | hneg) hc
        · exact hpos (congrArg RivenConfig.positive hc)
        · exact hneg (congrArg RivenConfig.negative hc)
      · intro hne
        by_contra hor
        push_neg at hor
        exact absurd (by rw [hor.1, hor.2]) hne

/-- A flat cap table for witnesses: every maximum magnitude is 100. -/
def capsFlat : String → String → Nat → Bool → ℚ := fun _ _ _ _ => 100

/-- Witness for C5: a single positive Damage stat rolled to 500 under the
flat cap table of 100 in the "primary" category. -/
theorem riven_verify_clamp_witness :
    ∃ r, verifyAndAdjustRivenConfig capsFlat
        ⟨"AP_ATTACK", [⟨"Damage", 500, false⟩], none⟩ "primary" = .ok r ∧
      (∀ s ∈ r.config.positive, 0 ≤ s.value ∧ s.value ≤ (100 : ℚ)) ∧
      (∀ s, r.config.negative = some s → s.value ≤ 0 ∧ -(100 : ℚ) ≤ s.value) ∧
      (r.adjusted = true ↔
        r.config ≠ ⟨"AP_ATTACK", [⟨"Damage", 500, false⟩], none⟩) :=
  (riven_verify_clamp capsFlat
    ⟨"AP_ATTACK", [⟨"Damage", 500, false⟩], none⟩ "primary"
    (fun _ _ _ _ => of_decide_eq_true rfl)).2 (by decide)

end Parametric
